import Mathlib

/-!
The fcp server: table question answering over CSV (src/main.go).

A shallow embedding of `src/main.go`.  The program is sequential glue around the Go
standard library and two remote HTTP endpoints.  Everything that is not code of the
repository (the `encoding/csv` lexer, `encoding/json`, `strconv.ParseFloat`,
`strings.TrimSpace`, `fmt`'s `%f` verb, float64 addition, the HTTP client) is a field of
the structure `World`; the functions of `main.go` are translated over an arbitrary
`World`.  Go's multiple return values `(T, error)` are pairs `T × Option GoError`, a
`nil` map is `none`, and a run-time panic is the outcome `Outcome.panicked`.
Console diagnostics (`fmt.Println`, `fmt.Printf`) are not modelled; calls that leave
the process are recorded in a list of `Event`s.
-/

set_option autoImplicit false

namespace Fcp

/-! ## Errors, outcomes, data types (main.go 16-39) -/

/-- Go `error` values that occur in `main.go`. -/
inductive GoError where
  /-- The sentinel `csv.ErrFieldCount`. -/
  | ErrFieldCount
  /-- An error value handed back by a library or transport call. -/
  | library (msg : String)
  /-- An error built with `fmt.Errorf`. -/
  | errorf (msg : String)
deriving DecidableEq, Repr

/-- The method `Error()` of an error value. -/
def GoError.Error : GoError → String
  | .ErrFieldCount => "wrong number of fields"
  | .library msg => msg
  | .errorf msg => msg

/-- A call either returns a value or panics (index out of range). -/
inductive Outcome (α : Type) where
  | returned (v : α)
  | panicked
deriving DecidableEq, Repr

/-- Go `map[string][]string`: an association list whose keys are kept unique by
`Table.store`. -/
abbrev Table := List (String × List String)

/-- Map lookup with presence information. -/
def Table.find : Table → String → Option (List String)
  | [], _ => none
  | (k', v) :: t, k => if k' = k then some v else Table.find t k

/-- The read `m[k]`: the stored slice, or the zero value (nil slice) for a missing key. -/
def Table.index (t : Table) (k : String) : List String :=
  (Table.find t k).getD []

/-- The assignment `m[k] = v`. -/
def Table.store : Table → String → List String → Table
  | [], k, v => [(k, v)]
  | (k', v') :: t, k, v =>
    if k' = k then (k, v) :: t else (k', v') :: Table.store t k v

/-- The keys present in the map. -/
def Table.keys (t : Table) : List String :=
  t.map Prod.fst

/-- The struct `Inputs` (main.go 28-31); `Table` may be the nil map. -/
structure Inputs where
  Table : Option Table
  Query : String
deriving DecidableEq, Repr

/-- The struct `Response` (main.go 34-39). -/
structure Response where
  Answer : String
  Coordinates : List (List Int)
  Cells : List String
  Aggregator : String
deriving DecidableEq, Repr

/-- The zero value `Response{}`. -/
def Response.zero : Response :=
  ⟨"", [], [], ""⟩

/-- The anonymous request struct decoded by `handleJawab` (main.go 204-207). -/
structure JawabRequest where
  CSV : String
  Ask : String
deriving DecidableEq, Repr

/-- One element of the slice decoded by `translateText` (main.go 172-174). -/
structure Translation where
  TranslationText : String
deriving DecidableEq, Repr

/-- What `ioutil.ReadAll(resp.Body)` yields: the bytes read and the read error, if any. -/
structure Body where
  data : String
  readErr : Option GoError
deriving DecidableEq, Repr

/-- The part of `*http.Response` the program looks at. -/
structure HttpResponse where
  StatusCode : Nat
  Body : Body
deriving DecidableEq, Repr

/-- An outgoing POST request with content type `application/json`. -/
structure HttpRequest where
  url : String
  body : String
  authorization : String
deriving DecidableEq, Repr

/-- Calls observed during one run of the handler. -/
inductive Event where
  /-- The function `translateText` was entered with this text. -/
  | translateText (text : String)
  /-- The method `ConnectAIModel` was entered with this payload and token. -/
  | ConnectAIModel (payload : Inputs) (token : String)
  /-- The HTTP client sent this request (`Client.Do`). -/
  | httpDo (req : HttpRequest)
deriving DecidableEq, Repr

/-- The standard library and the network, as seen by `main.go`. -/
structure World where
  /-- The records lexed by `encoding/csv` from a text, in order, each either a record or
  the lexical error that ends the reading (field-count checking is `ReadAll` below). -/
  csvRecords : String → List (Except GoError (List String))
  /-- The call `json.NewDecoder(r.Body).Decode(&req)` on the request body. -/
  jsonDecodeRequest : String → Except GoError JawabRequest
  /-- The call `json.Marshal(map[string]string{"inputs": text})`. -/
  jsonMarshalText : String → Except GoError String
  /-- The call `json.Marshal(payload)` on an `Inputs` value. -/
  jsonMarshalInputs : Inputs → Except GoError String
  /-- The call `client.Do(req)`. -/
  Do : HttpRequest → Except GoError HttpResponse
  /-- The call `json.Unmarshal(body, &result)` into the slice of translations. -/
  jsonUnmarshalTranslations : String → Except GoError (List Translation)
  /-- The call `json.NewDecoder(resp.Body).Decode(&response)`. -/
  jsonDecodeResponse : Body → Except GoError Response
  /-- The type `float64`. -/
  Float64 : Type
  /-- The constant `0.0`. -/
  zero : Float64
  /-- The operator `+` on float64. -/
  add : Float64 → Float64 → Float64
  /-- The call `strconv.ParseFloat(s, 64)`: a value and an error, as in Go. -/
  ParseFloat : String → Float64 × Option GoError
  /-- The call `strings.TrimSpace`. -/
  TrimSpace : String → String
  /-- The call `fmt.Sprintf("%f", x)`. -/
  SprintfF : Float64 → String

/-! ## CsvToSlice (main.go 41-71) -/

/-- The method `(*csv.Reader).ReadAll` with the default `FieldsPerRecord = 0`, over the
lexed records: the state `fieldsPerRecord` is set from the first record while it is
zero, and once positive every record must have that many fields. -/
def ReadAll : List (Except GoError (List String)) → Nat → Except GoError (List (List String))
  | [], _ => .ok []
  | .error err :: _, _ => .error err
  | .ok record :: rest, fieldsPerRecord =>
    if fieldsPerRecord > 0 then
      if record.length ≠ fieldsPerRecord then .error GoError.ErrFieldCount
      else
        match ReadAll rest fieldsPerRecord with
        | .error err => .error err
        | .ok records => .ok (record :: records)
    else
      match ReadAll rest record.length with
      | .error err => .error err
      | .ok records => .ok (record :: records)

/-- The loop of main.go 59-61: every header gets the empty slice. -/
def initColumns (headers : List String) (result : Table) : Table :=
  headers.foldl (fun result header => Table.store result header []) result

/-- The inner loop of main.go 64-67 from field index `i` on; `headers[i]` out of range
panics. -/
def appendRecord (headers : List String) : List String → Nat → Table → Outcome Table
  | [], _, result => .returned result
  | value :: rest, i, result =>
    match headers[i]? with
    | none => .panicked
    | some header =>
      appendRecord headers rest (i + 1)
        (Table.store result header (Table.index result header ++ [value]))

/-- The outer loop of main.go 63-68 over `records[1:]`. -/
def appendRecords (headers : List String) : List (List String) → Table → Outcome Table
  | [], result => .returned result
  | record :: rest, result =>
    match appendRecord headers record 0 result with
    | .panicked => .panicked
    | .returned result' => appendRecords headers rest result'

/-- The method `CsvToSlice` (main.go 43-71). -/
def CsvToSlice (w : World) (data : String) : Outcome (Option Table × Option GoError) :=
  match ReadAll (w.csvRecords data) 0 with
  | .error err => .returned (none, some err)
  | .ok [] => .returned (none, none)
  | .ok (headers :: rest) =>
    match appendRecords headers rest (initColumns headers []) with
    | .panicked => .panicked
    | .returned result => .returned (some result, none)

/-! ## ConnectAIModel (main.go 73-104) -/

/-- The URL of the table question answering endpoint (main.go 80). -/
def tableQAURL : String :=
  "https://api-inference.huggingface.co/models/google/tapas-base-finetuned-wtq"

/-- The message of main.go 95, `"received non-200 status code: %d, body: %s"`. -/
def non200Message (status : Nat) (body : String) : String :=
  "received non-200 status code: " ++ toString status ++ ", body: " ++ body

/-- The method `ConnectAIModel` (main.go 74-104) with the requests it sent. -/
def ConnectAIModel (w : World) (payload : Inputs) (token : String) :
    (Response × Option GoError) × List Event :=
  match w.jsonMarshalInputs payload with
  | .error err => ((Response.zero, some err), [])
  | .ok jsonData =>
    let req : HttpRequest := ⟨tableQAURL, jsonData, "Bearer " ++ token⟩
    match w.Do req with
    | .error err => ((Response.zero, some err), [Event.httpDo req])
    | .ok resp =>
      if resp.StatusCode ≠ 200 then
        ((Response.zero, some (GoError.errorf (non200Message resp.StatusCode resp.Body.data))),
          [Event.httpDo req])
      else
        match w.jsonDecodeResponse resp.Body with
        | .error err => ((Response.zero, some err), [Event.httpDo req])
        | .ok response => ((response, none), [Event.httpDo req])

/-! ## translateText (main.go 141-185) -/

/-- The URL of the translation endpoint (main.go 143). -/
def translateURL : String :=
  "https://api-inference.huggingface.co/models/Helsinki-NLP/opus-mt-id-en"

/-- The Authorization header of main.go 154; the literal credential is left out. -/
def translateAuthorization : String :=
  "Bearer <literal token>"

/-- The function `translateText` (main.go 142-185) with the requests it sent.  The
status code of the response is never read. -/
def translateText (w : World) (text : String) : (String × Option GoError) × List Event :=
  match w.jsonMarshalText text with
  | .error err => (("", some err), [])
  | .ok jsonData =>
    let req : HttpRequest := ⟨translateURL, jsonData, translateAuthorization⟩
    match w.Do req with
    | .error err => (("", some err), [Event.httpDo req])
    | .ok resp =>
      match resp.Body.readErr with
      | some err => (("", some err), [Event.httpDo req])
      | none =>
        match w.jsonUnmarshalTranslations resp.Body.data with
        | .error err =>
          (("", some (GoError.errorf ("error unmarshaling response: " ++ err.Error))),
            [Event.httpDo req])
        | .ok result =>
          match result with
          | first :: _ => ((first.TranslationText, none), [Event.httpDo req])
          | [] =>
            (("", some (GoError.errorf "no translation found in response")),
              [Event.httpDo req])

/-! ## handleJawab (main.go 201-297) -/

/-- A value of a field of a struct handed to `json.NewEncoder(w).Encode`. -/
inductive FieldValue where
  | bool (b : Bool)
  | string (s : String)
  | strings (l : List String)
  | intLists (l : List (List Int))
deriving DecidableEq, Repr

/-- A struct handed to the JSON encoder: its fields in order, each under its json tag. -/
abbrev Envelope := List (String × FieldValue)

/-- The struct of main.go 211-215 (and 221, 231, 248): `success` only. -/
def failureEnvelope : Envelope :=
  [("success", FieldValue.bool false)]

/-- The struct of main.go 284-296. -/
def successEnvelope (ansTmp : String) (response : Response) : Envelope :=
  [("success", FieldValue.bool true),
   ("answer", FieldValue.string ansTmp),
   ("coordinates", FieldValue.intLists response.Coordinates),
   ("cells", FieldValue.strings response.Cells),
   ("aggregator", FieldValue.string response.Aggregator)]

/-- The verb `%+v` of `fmt` on a `[]string`: the elements, separated by one space, in
square brackets. -/
def fmtStrings (cells : List String) : String :=
  "[" ++ " ".intercalate cells ++ "]"

/-- The loop of main.go 259-266: the value returned by `ParseFloat` is added to `total`
for every cell; the error is only printed. -/
def sumCells (w : World) (cells : List String) (total : w.Float64) : w.Float64 :=
  cells.foldl (fun total cell => w.add total (w.ParseFloat (w.TrimSpace cell)).1) total

/-- The answer text `ansTmp` computed in main.go 256-270. -/
def answerText (w : World) (response : Response) : String :=
  if response.Aggregator = "SUM" then
    w.SprintfF (sumCells w response.Cells w.zero)
  else
    "AI Model Response: \n" ++ fmtStrings response.Cells

/-- What one run of the handler did. -/
structure Handled where
  /-- The struct encoded to the response writer; `none` when the handler panicked. -/
  encoded : Option Envelope
  /-- Whether `Content-Type: application/json` was set (main.go 283). -/
  jsonContentType : Bool
  /-- The calls made, in order. -/
  events : List Event
deriving DecidableEq, Repr

/-- The method `handleJawab` (main.go 203-297); `token` is `c.Token`, `body` is the
request body.  The check of main.go 273 reads the `err` of `ConnectAIModel`, which is
nil there (the `err` of the loop is a new variable), so it never fires. -/
def handleJawab (w : World) (token : String) (body : String) : Handled :=
  match w.jsonDecodeRequest body with
  | .error _ => ⟨some failureEnvelope, false, []⟩
  | .ok req =>
    match CsvToSlice w req.CSV with
    | .panicked => ⟨none, false, []⟩
    | .returned (_, some _) => ⟨some failureEnvelope, false, []⟩
    | .returned (sliceData, none) =>
      match translateText w req.Ask with
      | ((_, some _), ev) => ⟨some failureEnvelope, false, Event.translateText req.Ask :: ev⟩
      | ((translatedQuery, none), ev) =>
        let payload : Inputs := ⟨sliceData, translatedQuery⟩
        match ConnectAIModel w payload token with
        | ((_, some _), ev') =>
          ⟨some failureEnvelope, false,
            Event.translateText req.Ask :: ev ++ Event.ConnectAIModel payload token :: ev'⟩
        | ((response, none), ev') =>
          ⟨some (successEnvelope (answerText w response) response), true,
            Event.translateText req.Ask :: ev ++ Event.ConnectAIModel payload token :: ev'⟩

/-- Whether an event reaches the table question answering side: an entry into
`ConnectAIModel` or a request to its URL. -/
def Event.isTableQA : Event → Bool
  | .ConnectAIModel _ _ => true
  | .httpDo req => decide (req.url = tableQAURL)
  | .translateText _ => false

/-- Whether an event belongs to the translation side. -/
def Event.isTranslate : Event → Bool
  | .translateText _ => true
  | .httpDo req => decide (req.url = translateURL)
  | .ConnectAIModel _ _ => false


/-! ## The column a key collects (specification side) -/

/-- The fields of `record`, read from field index `i` on, that stand under a header equal
to `k`. -/
def columnOf (headers : List String) (k : String) : List String → Nat → List String
  | [], _ => []
  | value :: rest, i =>
    if headers[i]? = some k then value :: columnOf headers k rest (i + 1)
    else columnOf headers k rest (i + 1)

/-- The fields of all `rows` that stand under a header equal to `k`, row after row. -/
def columnOfRows (headers : List String) (k : String) : List (List String) → List String
  | [] => []
  | record :: rest => columnOf headers k record 0 ++ columnOfRows headers k rest

/-! ## Test doubles for the library and the two endpoints

Concrete values for the fields of `World`, used to run the program on explicit inputs.
Each double returns what the Go library returns at the inputs listed with it. -/

/-- Splits a list of characters at every occurrence of `sep`. -/
def splitChars (sep : Char) : List Char → List (List Char)
  | [] => [[]]
  | c :: cs =>
    if c = sep then [] :: splitChars sep cs
    else
      match splitChars sep cs with
      | [] => [[c]]
      | field :: fields => (c :: field) :: fields

/-- Double for the `encoding/csv` lexer: lines end at LF, empty lines are skipped, fields
are separated by commas.  It is the library's result on text without quotes and
carriage returns. -/
def plainCsvRecords (data : String) : List (Except GoError (List String)) :=
  ((splitChars '\n' data.toList).filter (fun line => !line.isEmpty)).map
    (fun line => Except.ok ((splitChars ',' line).map String.mk))

/-- Double for float64: a finite value in millionths, the two infinities, or NaN. -/
inductive Fixed where
  | fin (micro : Int)
  | posInf
  | negInf
  | nan
deriving DecidableEq, Repr

/-- Addition of the double, with the IEEE rules for infinities and NaN. -/
def Fixed.add : Fixed → Fixed → Fixed
  | .fin a, .fin b => .fin (a + b)
  | .nan, _ => .nan
  | _, .nan => .nan
  | .posInf, .negInf => .nan
  | .negInf, .posInf => .nan
  | .posInf, _ => .posInf
  | _, .posInf => .posInf
  | .negInf, _ => .negInf
  | _, .negInf => .negInf

/-- The digits of `n`, padded with zeros on the left to six places. -/
def sixDigits (n : Nat) : String :=
  String.mk (List.replicate (6 - (toString n).length) '0') ++ toString n

/-- Double for `fmt.Sprintf("%f", x)`: six decimals; `+Inf`, `-Inf`, `NaN`. -/
def Fixed.format : Fixed → String
  | .fin m =>
    (if m < 0 then "-" else "") ++ toString (m.natAbs / 1000000) ++ "." ++
      sixDigits (m.natAbs % 1000000)
  | .posInf => "+Inf"
  | .negInf => "-Inf"
  | .nan => "NaN"

/-- Double for `strconv.ParseFloat(s, 64)` at the inputs `"1.5"`, `"2.5"`, `"1e400"` and
`"x"`: a text out of the float64 range yields the infinity together with a range
error, a text that is no number yields `0` together with a syntax error. -/
def stubParseFloat (s : String) : Fixed × Option GoError :=
  if s = "1.5" then (Fixed.fin 1500000, none)
  else if s = "2.5" then (Fixed.fin 2500000, none)
  else if s = "1e400" then
    (Fixed.posInf,
      some (GoError.library "strconv.ParseFloat: parsing \"1e400\": value out of range"))
  else
    (Fixed.fin 0,
      some (GoError.library ("strconv.ParseFloat: parsing \"" ++ s ++ "\": invalid syntax")))

/-- The white space of `unicode.IsSpace`. -/
def isSpace (c : Char) : Bool :=
  c = '\t' || c = '\n' || c = '\x0b' || c = '\x0c' || c = '\r' || c = ' ' ||
  c = '\u0085' || c = '\u00a0' || c = '\u1680' ||
  (0x2000 ≤ c.toNat && c.toNat ≤ 0x200a) ||
  c = '\u2028' || c = '\u2029' || c = '\u202f' || c = '\u205f' || c = '\u3000'

/-- Double for `strings.TrimSpace`: leading and trailing white space removed. -/
def stubTrimSpace (s : String) : String :=
  String.mk ((s.toList.dropWhile isSpace).reverse.dropWhile isSpace).reverse

/-- The request body of the end-to-end example:
`{"csv":"name,age\nAlice,30\nBob,25","ask":"siapa yang berumur 30?"}`. -/
def exampleBody : String :=
  "\x7b\"csv\":\"name,age\\nAlice,30\\nBob,25\",\"ask\":\"siapa yang berumur 30?\"\x7d"

/-- A request body whose CSV has a short data row: `{"csv":"a,b\n1","ask":"berapa?"}`. -/
def raggedBody : String :=
  "\x7b\"csv\":\"a,b\\n1\",\"ask\":\"berapa?\"\x7d"

/-- Double for decoding the request body, at `exampleBody`, `raggedBody`, and at text that
is no JSON. -/
def stubDecodeRequest (body : String) : Except GoError JawabRequest :=
  if body = exampleBody then
    Except.ok ⟨"name,age\nAlice,30\nBob,25", "siapa yang berumur 30?"⟩
  else if body = raggedBody then
    Except.ok ⟨"a,b\n1", "berapa?"⟩
  else
    Except.error (GoError.library "invalid character")

/-- Double for `json.Marshal(map[string]string{"inputs": text})` on text that needs no
escaping. -/
def stubMarshalText (text : String) : Except GoError String :=
  Except.ok ("\x7b\"inputs\":\"" ++ text ++ "\"\x7d")

/-- A JSON array of strings that need no escaping. -/
def jsonStrings (l : List String) : String :=
  "[" ++ ",".intercalate (l.map (fun s => "\"" ++ s ++ "\"")) ++ "]"

/-- Byte order on strings, as used by the JSON encoder to sort map keys. -/
def charsLt : List Char → List Char → Bool
  | _, [] => false
  | [], _ :: _ => true
  | a :: as, b :: bs => a.toNat < b.toNat || (a = b && charsLt as bs)

/-- Insertion of a column into a list of columns sorted by key. -/
def insertColumn (col : String × List String) : Table → Table
  | [] => [col]
  | col' :: rest =>
    if charsLt col.1.toList col'.1.toList then col :: col' :: rest
    else col' :: insertColumn col rest

/-- Double for `json.Marshal` on an `Inputs` value without characters that need escaping:
the map keys come in sorted order, the nil map is `null`. -/
def stubMarshalInputs (payload : Inputs) : Except GoError String :=
  let table :=
    match payload.Table with
    | none => "null"
    | some t =>
      "\x7b" ++ ",".intercalate
        ((t.foldr insertColumn []).map (fun col => "\"" ++ col.1 ++ "\":" ++ jsonStrings col.2))
        ++ "\x7d"
  Except.ok ("\x7b\"table\":" ++ table ++ ",\"query\":\"" ++ payload.Query ++ "\"\x7d")

/-- The body `[{"translation_text":"who is 30 years old?"}]`. -/
def oneTranslation : String :=
  "[\x7b\"translation_text\":\"who is 30 years old?\"\x7d]"

/-- The body `[{"translation_text":"who is 30 years old?"},{"translation_text":"other"}]`. -/
def twoTranslations : String :=
  "[\x7b\"translation_text\":\"who is 30 years old?\"\x7d,\x7b\"translation_text\":\"other\"\x7d]"

/-- The body `{"error":"Internal Server Error"}`. -/
def errorObject : String :=
  "\x7b\"error\":\"Internal Server Error\"\x7d"

/-- Double for `json.Unmarshal` into the slice of translations, at `oneTranslation`,
`twoTranslations`, `[]`, and at text that is no JSON array. -/
def stubUnmarshalTranslations (body : String) : Except GoError (List Translation) :=
  if body = oneTranslation then Except.ok [⟨"who is 30 years old?"⟩]
  else if body = twoTranslations then Except.ok [⟨"who is 30 years old?"⟩, ⟨"other"⟩]
  else if body = "[]" then Except.ok []
  else Except.error (GoError.library "json: cannot unmarshal object into Go value")

/-- The body
`{"answer":"Alice","coordinates":[[0,0]],"cells":["Alice"],"aggregator":"NONE"}`. -/
def aliceAnswer : String :=
  "\x7b\"answer\":\"Alice\",\"coordinates\":[[0,0]],\"cells\":[\"Alice\"],\"aggregator\":\"NONE\"\x7d"

/-- The body
`{"answer":"SUM > 1e400","coordinates":[[0,1]],"cells":["1e400"],"aggregator":"SUM"}`. -/
def hugeSumAnswer : String :=
  "\x7b\"answer\":\"SUM > 1e400\",\"coordinates\":[[0,1]],\"cells\":[\"1e400\"],\"aggregator\":\"SUM\"\x7d"

/-- Double for decoding the table question answering response, at `aliceAnswer` and
`hugeSumAnswer` read without error, and at text that is no JSON object. -/
def stubDecodeResponse (body : Body) : Except GoError Response :=
  match body.readErr with
  | some err => Except.error err
  | none =>
    if body.data = aliceAnswer then Except.ok ⟨"Alice", [[0, 0]], ["Alice"], "NONE"⟩
    else if body.data = hugeSumAnswer then Except.ok ⟨"SUM > 1e400", [[0, 1]], ["1e400"], "SUM"⟩
    else Except.error (GoError.library "invalid character")

/-- The world of the doubles, with the translation endpoint answering `translation` and
every other URL answering `tableQA`. -/
def stubWorld (translation tableQA : Except GoError HttpResponse) : World where
  csvRecords := plainCsvRecords
  jsonDecodeRequest := stubDecodeRequest
  jsonMarshalText := stubMarshalText
  jsonMarshalInputs := stubMarshalInputs
  Do := fun req => if req.url = translateURL then translation else tableQA
  jsonUnmarshalTranslations := stubUnmarshalTranslations
  jsonDecodeResponse := stubDecodeResponse
  Float64 := Fixed
  zero := Fixed.fin 0
  add := Fixed.add
  ParseFloat := stubParseFloat
  TrimSpace := stubTrimSpace
  SprintfF := Fixed.format

/-- The upstreams of the end-to-end example: status 200 with `oneTranslation` and status
200 with `aliceAnswer`. -/
def exampleWorld : World :=
  stubWorld (Except.ok ⟨200, ⟨oneTranslation, none⟩⟩) (Except.ok ⟨200, ⟨aliceAnswer, none⟩⟩)

/-- The world `w` with another decoder for the table question answering response. -/
def World.withDecodeResponse (w : World) (decode : Body → Except GoError Response) : World :=
  { w with jsonDecodeResponse := decode }

/-- Upstreams where the table question answering endpoint answers with `hugeSumAnswer`. -/
def hugeSumWorld : World :=
  stubWorld (Except.ok ⟨200, ⟨oneTranslation, none⟩⟩) (Except.ok ⟨200, ⟨hugeSumAnswer, none⟩⟩)

/-- Upstreams where the translation endpoint answers with status 500 and the body
`oneTranslation`. -/
def status500World : World :=
  stubWorld (Except.ok ⟨500, ⟨oneTranslation, none⟩⟩) (Except.ok ⟨200, ⟨aliceAnswer, none⟩⟩)

/-- Upstreams where the translation endpoint answers with status 500 and the body
`errorObject`. -/
def translationDownWorld : World :=
  stubWorld (Except.ok ⟨500, ⟨errorObject, none⟩⟩) (Except.ok ⟨200, ⟨aliceAnswer, none⟩⟩)

/-- Upstreams where the table question answering endpoint answers with status 503 and the
body `errorObject`. -/
def tableQADownWorld : World :=
  stubWorld (Except.ok ⟨200, ⟨oneTranslation, none⟩⟩) (Except.ok ⟨503, ⟨errorObject, none⟩⟩)

/-- Upstreams where the translation endpoint answers with `twoTranslations`. -/
def twoTranslationsWorld : World :=
  stubWorld (Except.ok ⟨200, ⟨twoTranslations, none⟩⟩) (Except.ok ⟨200, ⟨aliceAnswer, none⟩⟩)

/-! ## Lemmas on maps -/

theorem Table.find_store_same (t : Table) (k : String) (v : List String) :
    Table.find (Table.store t k v) k = some v := by
  induction t with
  | nil => simp [Table.store, Table.find]
  | cons p t ih =>
    obtain ⟨k', v'⟩ := p
    by_cases h : k' = k
    · simp [Table.store, Table.find, h]
    · simp [Table.store, Table.find, h, ih]

theorem Table.find_store_other (t : Table) (k k' : String) (v : List String) (h : k' ≠ k) :
    Table.find (Table.store t k v) k' = Table.find t k' := by
  induction t with
  | nil => simp [Table.store, Table.find, Ne.symm h]
  | cons p t ih =>
    obtain ⟨k₀, v₀⟩ := p
    by_cases h₀ : k₀ = k
    · subst h₀
      simp [Table.store, Table.find, Ne.symm h]
    · by_cases h₁ : k₀ = k'
      · subst h₁
        simp [Table.store, Table.find, h]
      · simp [Table.store, Table.find, h₀, h₁, ih]

theorem Table.index_store_same (t : Table) (k : String) (v : List String) :
    Table.index (Table.store t k v) k = v := by
  simp [Table.index, Table.find_store_same]

theorem Table.index_store_other (t : Table) (k k' : String) (v : List String) (h : k' ≠ k) :
    Table.index (Table.store t k v) k' = Table.index t k' := by
  simp [Table.index, Table.find_store_other t k k' v h]

theorem Table.mem_keys_store (t : Table) (k k' : String) (v : List String) :
    k' ∈ Table.keys (Table.store t k v) ↔ k' = k ∨ k' ∈ Table.keys t := by
  induction t with
  | nil => simp [Table.store, Table.keys]
  | cons p t ih =>
    obtain ⟨k₀, v₀⟩ := p
    by_cases h₀ : k₀ = k
    · subst h₀
      simp [Table.store, Table.keys]
    · have ih' : k' ∈ List.map Prod.fst (Table.store t k v) ↔ k' = k ∨ k' ∈ List.map Prod.fst t := ih
      simp only [Table.store, h₀, if_false, Table.keys, List.map_cons, List.mem_cons, ih']
      tauto

theorem Table.find_eq_none_iff (t : Table) (k : String) :
    Table.find t k = none ↔ k ∉ Table.keys t := by
  induction t with
  | nil => simp [Table.find, Table.keys]
  | cons p t ih =>
    obtain ⟨k₀, v₀⟩ := p
    have ih' : Table.find t k = none ↔ k ∉ List.map Prod.fst t := ih
    by_cases h₀ : k₀ = k
    · simp [Table.find, Table.keys, h₀]
    · simp only [Table.find, h₀, if_false, Table.keys, List.map_cons, List.mem_cons, ih']
      have : ¬ k = k₀ := fun h => h₀ h.symm
      tauto

theorem Table.find_of_mem_keys (t : Table) (k : String) (h : k ∈ Table.keys t) :
    Table.find t k = some (Table.index t k) := by
  cases hf : Table.find t k with
  | none => exact absurd h ((Table.find_eq_none_iff t k).mp hf)
  | some v => simp [Table.index, hf]


/-! ## Lemmas on the loops of CsvToSlice -/

theorem mem_keys_initColumns (headers : List String) (t : Table) (k : String) :
    k ∈ Table.keys (initColumns headers t) ↔ k ∈ headers ∨ k ∈ Table.keys t := by
  induction headers generalizing t with
  | nil => simp [initColumns]
  | cons h hs ih =>
    have step : initColumns (h :: hs) t = initColumns hs (Table.store t h []) := rfl
    rw [step, ih, Table.mem_keys_store]
    simp only [List.mem_cons]
    tauto

theorem index_initColumns (headers : List String) (t : Table) (k : String) :
    Table.index (initColumns headers t) k = if k ∈ headers then [] else Table.index t k := by
  induction headers generalizing t with
  | nil => simp [initColumns]
  | cons h hs ih =>
    have step : initColumns (h :: hs) t = initColumns hs (Table.store t h []) := rfl
    rw [step, ih]
    by_cases hk : k ∈ hs
    · simp [hk]
    · by_cases hkh : k = h
      · subst hkh
        simp [hk, Table.index_store_same]
      · simp [hk, hkh, Table.index_store_other t h k [] hkh]

theorem appendRecord_spec (headers : List String) (record : List String) :
    ∀ (i : Nat) (result : Table), i + record.length ≤ headers.length →
      ∃ r, appendRecord headers record i result = Outcome.returned r ∧
        (∀ k, Table.index r k = Table.index result k ++ columnOf headers k record i) ∧
        (∀ k, k ∈ Table.keys result → k ∈ Table.keys r) ∧
        (∀ k, k ∈ Table.keys r → k ∈ Table.keys result ∨ k ∈ headers) := by
  induction record with
  | nil =>
    intro i result _
    exact ⟨result, rfl, by simp [columnOf], fun _ h => h, fun _ h => Or.inl h⟩
  | cons value rest ih =>
    intro i result hlen
    have hi : i < headers.length := by
      simp only [List.length_cons] at hlen
      omega
    have hget : headers[i]? = some headers[i] := List.getElem?_eq_getElem hi
    have hlen' : i + 1 + rest.length ≤ headers.length := by
      simp only [List.length_cons] at hlen
      omega
    obtain ⟨r, hr, hidx, hsub, hsup⟩ :=
      ih (i + 1) (Table.store result headers[i] (Table.index result headers[i] ++ [value])) hlen'
    refine ⟨r, ?_, ?_, ?_, ?_⟩
    · simp only [appendRecord, hget]
      exact hr
    · intro k
      rw [hidx k]
      by_cases hk : k = headers[i]
      · subst hk
        simp [columnOf, hget, Table.index_store_same]
      · have hne : ¬ headers[i] = k := fun h => hk h.symm
        simp [columnOf, hget, hne, Table.index_store_other _ _ _ _ hk]
    · intro k hk
      exact hsub k ((Table.mem_keys_store _ _ _ _).mpr (Or.inr hk))
    · intro k hk
      rcases hsup k hk with h | h
      · rcases (Table.mem_keys_store _ _ _ _).mp h with h' | h'
        · exact Or.inr (h' ▸ List.getElem_mem hi)
        · exact Or.inl h'
      · exact Or.inr h

theorem appendRecords_spec (headers : List String) (rows : List (List String)) :
    ∀ (result : Table), (∀ record ∈ rows, record.length ≤ headers.length) →
      ∃ r, appendRecords headers rows result = Outcome.returned r ∧
        (∀ k, Table.index r k = Table.index result k ++ columnOfRows headers k rows) ∧
        (∀ k, k ∈ Table.keys result → k ∈ Table.keys r) ∧
        (∀ k, k ∈ Table.keys r → k ∈ Table.keys result ∨ k ∈ headers) := by
  induction rows with
  | nil =>
    intro result _
    exact ⟨result, rfl, by simp [columnOfRows], fun _ h => h, fun _ h => Or.inl h⟩
  | cons record rest ih =>
    intro result hw
    have h0 : 0 + record.length ≤ headers.length := by
      have := hw record (List.mem_cons_self _ _)
      omega
    obtain ⟨r₁, hr₁, hidx₁, hsub₁, hsup₁⟩ := appendRecord_spec headers record 0 result h0
    obtain ⟨r, hr, hidx, hsub, hsup⟩ :=
      ih r₁ (fun rec hrec => hw rec (List.mem_cons_of_mem _ hrec))
    refine ⟨r, ?_, ?_, ?_, ?_⟩
    · simp only [appendRecords, hr₁]
      exact hr
    · intro k
      rw [hidx k, hidx₁ k]
      simp [columnOfRows]
    · intro k hk
      exact hsub k (hsub₁ k hk)
    · intro k hk
      rcases hsup k hk with h | h
      · exact hsup₁ k h
      · exact Or.inr h

/-- Under pairwise distinct headers, a record read from index `i` on contributes to the
column of `headers[j]` exactly its field at position `j - i`, when there is one. -/
theorem columnOf_nodup (headers : List String) (hnodup : headers.Nodup) (j : Nat)
    (hj : j < headers.length) (record : List String) :
    ∀ (i : Nat), (columnOf headers headers[j] record i).map some =
      if i ≤ j ∧ j < i + record.length then [record[j - i]?] else [] := by
  induction record with
  | nil =>
    intro i
    have : ¬ (i ≤ j ∧ j < i + 0) := by omega
    simp [columnOf, this]
  | cons value rest ih =>
    intro i
    by_cases hij : headers[i]? = some headers[j]
    · have hi : i < headers.length := by
        by_contra hcon
        rw [List.getElem?_eq_none (by omega)] at hij
        exact absurd hij (by simp)
      have heq : headers[i] = headers[j] := by
        rw [List.getElem?_eq_getElem hi] at hij
        exact Option.some.inj hij
      have hidx : i = j := (List.Nodup.getElem_inj_iff hnodup).mp heq
      subst hidx
      have hnot : ¬ (i + 1 ≤ i ∧ i < i + 1 + rest.length) := by omega
      simp [columnOf, ih (i + 1), hnot]
    · have hne : i ≠ j := by
        intro h
        subst h
        exact hij (List.getElem?_eq_getElem hj)
      simp only [columnOf, hij, if_false, ih (i + 1), List.length_cons]
      by_cases hc : i + 1 ≤ j ∧ j < i + 1 + rest.length
      · have hc' : i ≤ j ∧ j < i + (rest.length + 1) := by omega
        have hsub : j - i = (j - (i + 1)) + 1 := by omega
        simp [hc, hc', hsub]
      · have hc' : ¬ (i ≤ j ∧ j < i + (rest.length + 1)) := by omega
        simp [hc, hc']

theorem columnOfRows_nodup (headers : List String) (hnodup : headers.Nodup) (j : Nat)
    (hj : j < headers.length) (rows : List (List String))
    (hwidth : ∀ record ∈ rows, record.length = headers.length) :
    (columnOfRows headers headers[j] rows).map some = rows.map (fun record => record[j]?) := by
  induction rows with
  | nil => simp [columnOfRows]
  | cons record rest ih =>
    have hw := hwidth record (List.mem_cons_self _ _)
    have hc : j < record.length := by omega
    simp [columnOfRows, columnOf_nodup headers hnodup j hj record 0, hc,
      ih (fun rec hrec => hwidth rec (List.mem_cons_of_mem _ hrec))]


/-! ## Lemmas on ReadAll -/

theorem ReadAll_width (items : List (Except GoError (List String))) (fieldsPerRecord : Nat)
    (hpos : 0 < fieldsPerRecord) :
    ∀ records, ReadAll items fieldsPerRecord = Except.ok records →
      ∀ record ∈ records, record.length = fieldsPerRecord := by
  induction items with
  | nil =>
    intro records h
    simp only [ReadAll, Except.ok.injEq] at h
    subst h
    simp
  | cons item rest ih =>
    intro records h
    cases item with
    | error err => simp [ReadAll] at h
    | ok record =>
      simp only [ReadAll, hpos, if_true] at h
      by_cases hlen : record.length = fieldsPerRecord
      · simp only [hlen, ne_eq, not_true_eq_false, if_false] at h
        cases hrest : ReadAll rest fieldsPerRecord with
        | error err => simp [hrest] at h
        | ok records' =>
          simp only [hrest, Except.ok.injEq] at h
          subst h
          intro r hr
          rcases List.mem_cons.mp hr with h1 | h1
          · exact h1 ▸ hlen
          · exact ih records' hrest r h1
      · simp [hlen] at h

theorem ReadAll_head (items : List (Except GoError (List String))) (headers : List String)
    (rows : List (List String)) (h : ReadAll items 0 = Except.ok (headers :: rows)) :
    ∃ rest, items = Except.ok headers :: rest ∧
      ReadAll rest headers.length = Except.ok rows := by
  cases items with
  | nil => simp [ReadAll] at h
  | cons item rest =>
    cases item with
    | error err => simp [ReadAll] at h
    | ok record =>
      simp only [ReadAll, gt_iff_lt, lt_self_iff_false, if_false] at h
      cases hrest : ReadAll rest record.length with
      | error err => simp [hrest] at h
      | ok records' =>
        simp only [hrest, Except.ok.injEq, List.cons.injEq] at h
        obtain ⟨h1, h2⟩ := h
        subst h1
        subst h2
        exact ⟨rest, rfl, hrest⟩

theorem ReadAll_ragged (items : List (Except GoError (List String))) (fieldsPerRecord : Nat)
    (hpos : 0 < fieldsPerRecord) (record : List String) (hmem : Except.ok record ∈ items)
    (hlen : record.length ≠ fieldsPerRecord) :
    ∃ err, ReadAll items fieldsPerRecord = Except.error err := by
  induction items with
  | nil => simp at hmem
  | cons item rest ih =>
    cases item with
    | error err => exact ⟨err, by simp [ReadAll]⟩
    | ok record' =>
      by_cases hlen' : record'.length = fieldsPerRecord
      · have hmem' : Except.ok record ∈ rest := by
          rcases List.mem_cons.mp hmem with h1 | h1
          · have : record = record' := Except.ok.inj h1
            exact absurd (this ▸ hlen') hlen
          · exact h1
        obtain ⟨err, herr⟩ := ih hmem'
        exact ⟨err, by simp [ReadAll, hpos, hlen', herr]⟩
      · exact ⟨GoError.ErrFieldCount, by simp [ReadAll, hpos, hlen']⟩

/-- What `CsvToSlice` returns on records the reader accepted whose data rows are no wider
than the header row. -/
theorem CsvToSlice_spec (w : World) (data : String) (headers : List String)
    (rows : List (List String))
    (hread : ReadAll (w.csvRecords data) 0 = Except.ok (headers :: rows))
    (hwidth : ∀ record ∈ rows, record.length ≤ headers.length) :
    ∃ tbl, CsvToSlice w data = Outcome.returned (some tbl, none) ∧
      (∀ k, Table.index tbl k = columnOfRows headers k rows) ∧
      (∀ k, k ∈ Table.keys tbl ↔ k ∈ headers) := by
  obtain ⟨r, hr, hidx, hsub, hsup⟩ :=
    appendRecords_spec headers rows (initColumns headers []) hwidth
  refine ⟨r, ?_, ?_, ?_⟩
  · simp only [CsvToSlice, hread, hr]
  · intro k
    rw [hidx k, index_initColumns]
    simp [Table.index, Table.find]
  · intro k
    constructor
    · intro hk
      rcases hsup k hk with h | h
      · rcases (mem_keys_initColumns headers [] k).mp h with h' | h'
        · exact h'
        · simp [Table.keys] at h'
      · exact h
    · intro hk
      exact hsub k ((mem_keys_initColumns headers [] k).mpr (Or.inl hk))

/-! ## Lemmas on the handler -/

theorem translateURL_ne_tableQAURL : translateURL ≠ tableQAURL := by
  decide

theorem translateText_events (w : World) (text : String) :
    ∀ e ∈ (translateText w text).2, Event.isTableQA e = false := by
  have hurl : decide (translateURL = tableQAURL) = false :=
    decide_eq_false translateURL_ne_tableQAURL
  intro e he
  unfold translateText at he
  split at he
  · simp at he
  · dsimp only at he
    split at he
    · simp only [List.mem_singleton] at he
      subst he
      exact hurl
    · split at he
      · simp only [List.mem_singleton] at he
        subst he
        exact hurl
      · split at he
        · simp only [List.mem_singleton] at he
          subst he
          exact hurl
        · split at he
          · simp only [List.mem_singleton] at he
            subst he
            exact hurl
          · simp only [List.mem_singleton] at he
            subst he
            exact hurl

theorem ConnectAIModel_success (w : World) (payload : Inputs) (token : String)
    (response : Response) (ev : List Event)
    (h : ConnectAIModel w payload token = ((response, none), ev)) :
    ∃ jsonData resp, w.jsonMarshalInputs payload = Except.ok jsonData ∧
      w.Do ⟨tableQAURL, jsonData, "Bearer " ++ token⟩ = Except.ok resp ∧
      resp.StatusCode = 200 ∧
      w.jsonDecodeResponse resp.Body = Except.ok response ∧
      ev = [Event.httpDo ⟨tableQAURL, jsonData, "Bearer " ++ token⟩] := by
  cases hm : w.jsonMarshalInputs payload with
  | error err => simp [ConnectAIModel, hm] at h
  | ok jsonData =>
    cases hdo : w.Do ⟨tableQAURL, jsonData, "Bearer " ++ token⟩ with
    | error err => simp [ConnectAIModel, hm, hdo] at h
    | ok resp =>
      by_cases hstatus : resp.StatusCode = 200
      · cases hdecode : w.jsonDecodeResponse resp.Body with
        | error err => simp [ConnectAIModel, hm, hdo, hstatus, hdecode] at h
        | ok response' =>
          simp only [ConnectAIModel, hm, hdo, hstatus, hdecode, ne_eq, not_true_eq_false,
            if_false, Prod.mk.injEq] at h
          exact ⟨jsonData, resp, rfl, hdo, hstatus, h.1.1 ▸ hdecode, h.2.symm⟩
      · simp [ConnectAIModel, hm, hdo, hstatus] at h

theorem handleJawab_success (w : World) (token body : String) (req : JawabRequest)
    (sliceData : Option Table) (translated : String) (ev ev' : List Event)
    (response : Response)
    (hdec : w.jsonDecodeRequest body = Except.ok req)
    (hcsv : CsvToSlice w req.CSV = Outcome.returned (sliceData, none))
    (htr : translateText w req.Ask = ((translated, none), ev))
    (hai : ConnectAIModel w ⟨sliceData, translated⟩ token = ((response, none), ev')) :
    handleJawab w token body =
      ⟨some (successEnvelope (answerText w response) response), true,
        Event.translateText req.Ask :: ev ++
          Event.ConnectAIModel ⟨sliceData, translated⟩ token :: ev'⟩ := by
  simp only [handleJawab, hdec, hcsv, htr, hai]

/-- Where `ParseFloat` hands back `0.0` with every error and adding `0.0` changes nothing,
the loop of main.go 259-266 sums exactly the cells that parse. -/
theorem sumCells_of_zero_on_error (w : World)
    (hzero : ∀ s v err, w.ParseFloat s = (v, some err) → v = w.zero)
    (hadd : ∀ x, w.add x w.zero = x) (cells : List String) :
    ∀ total, sumCells w cells total =
      sumCells w (cells.filter (fun cell => (w.ParseFloat (w.TrimSpace cell)).2.isNone)) total := by
  induction cells with
  | nil => intro total; rfl
  | cons cell rest ih =>
    intro total
    have step : sumCells w (cell :: rest) total =
        sumCells w rest (w.add total (w.ParseFloat (w.TrimSpace cell)).1) := rfl
    rw [step, ih]
    cases hp : w.ParseFloat (w.TrimSpace cell) with
    | mk v e =>
      cases e with
      | none => simp [List.filter, hp, sumCells]
      | some err =>
        have hv : v = w.zero := hzero _ v err hp
        simp [List.filter, hp, hv, hadd]

theorem splitChars_ne_nil (sep : Char) (cs : List Char) : splitChars sep cs ≠ [] := by
  cases cs with
  | nil => simp [splitChars]
  | cons c cs =>
    unfold splitChars
    split
    · simp
    · split <;> simp

theorem plainCsvRecords_nonempty (data : String) (record : List String)
    (h : Except.ok record ∈ plainCsvRecords data) : record ≠ [] := by
  unfold plainCsvRecords at h
  simp only [List.mem_map] at h
  obtain ⟨line, _, hline⟩ := h
  have : record = (splitChars ',' line).map String.mk := (Except.ok.inj hline).symm
  subst this
  simp [splitChars_ne_nil]

/-! ## Claims on CsvToSlice -/

/-- C1: on records the reader accepted (the first is the header row, every data row has
the width of the header row) with pairwise distinct header names, `CsvToSlice` returns
no error and a map that holds, under `headers[j]`, the list of the `j`-th fields of the
data rows in row order. -/
theorem CsvToSlice_columns (w : World) (data : String) (headers : List String)
    (rows : List (List String))
    (hread : ReadAll (w.csvRecords data) 0 = Except.ok (headers :: rows))
    (hwidth : ∀ record ∈ rows, record.length = headers.length)
    (hnodup : headers.Nodup) :
    ∃ tbl, CsvToSlice w data = Outcome.returned (some tbl, none) ∧
      ∀ (j : Nat) (hj : j < headers.length), ∃ col,
        Table.find tbl headers[j] = some col ∧
        col.map some = rows.map (fun row => row[j]?) := by
  obtain ⟨tbl, hret, hidx, hkeys⟩ :=
    CsvToSlice_spec w data headers rows hread (fun record hrec => le_of_eq (hwidth record hrec))
  refine ⟨tbl, hret, ?_⟩
  intro j hj
  refine ⟨Table.index tbl headers[j], ?_, ?_⟩
  · exact Table.find_of_mem_keys tbl _ ((hkeys _).mpr (List.getElem_mem hj))
  · rw [hidx]
    exact columnOfRows_nodup headers hnodup j hj rows hwidth

/-- C1 at the table of the end-to-end example. -/
theorem CsvToSlice_columns_witness :
    ReadAll (exampleWorld.csvRecords "name,age\nAlice,30\nBob,25") 0 =
        Except.ok [["name", "age"], ["Alice", "30"], ["Bob", "25"]] ∧
      ∃ tbl, CsvToSlice exampleWorld "name,age\nAlice,30\nBob,25" =
          Outcome.returned (some tbl, none) ∧
        ∀ (j : Nat) (hj : j < ["name", "age"].length), ∃ col,
          Table.find tbl (["name", "age"].get ⟨j, hj⟩) = some col ∧
          col.map some = [["Alice", "30"], ["Bob", "25"]].map (fun row => row[j]?) :=
  ⟨rfl, CsvToSlice_columns exampleWorld "name,age\nAlice,30\nBob,25" ["name", "age"]
    [["Alice", "30"], ["Bob", "25"]] rfl (by decide) (by decide)⟩

/-- C2 fails as stated: the reader accepts the records `a,a` / `1,2`, the header set is
`{a}` and there is one data row, yet the slice stored under `a` has two entries. -/
theorem CsvToSlice_duplicate_header_lengths :
    ReadAll (exampleWorld.csvRecords "a,a\n1,2") 0 = Except.ok [["a", "a"], ["1", "2"]] ∧
      ¬ ∃ tbl, CsvToSlice exampleWorld "a,a\n1,2" = Outcome.returned (some tbl, none) ∧
          (∀ k, k ∈ Table.keys tbl ↔ k ∈ ["a", "a"]) ∧
          ∀ k v, Table.find tbl k = some v → v.length = [["1", "2"]].length := by
  refine ⟨rfl, ?_⟩
  rintro ⟨tbl, hret, _, hlen⟩
  have hval : CsvToSlice exampleWorld "a,a\n1,2" =
      Outcome.returned (some [("a", ["1", "2"])], none) := rfl
  rw [hval] at hret
  have htbl : tbl = [("a", ["1", "2"])] := by
    injection hret with h
    injection h with h1 _
    injection h1 with h2
    exact h2.symm
  subst htbl
  have := hlen "a" ["1", "2"] rfl
  simp at this

/-- C2, amended: on records the reader accepted, with `N` data rows of the width of the
header row and pairwise distinct header names, `CsvToSlice` returns a map whose keys
are exactly the header names and whose every value has length `N`. -/
theorem CsvToSlice_keys_lengths (w : World) (data : String) (headers : List String)
    (rows : List (List String))
    (hread : ReadAll (w.csvRecords data) 0 = Except.ok (headers :: rows))
    (hwidth : ∀ record ∈ rows, record.length = headers.length)
    (hnodup : headers.Nodup) :
    ∃ tbl, CsvToSlice w data = Outcome.returned (some tbl, none) ∧
      (∀ k, k ∈ Table.keys tbl ↔ k ∈ headers) ∧
      ∀ k v, Table.find tbl k = some v → v.length = rows.length := by
  obtain ⟨tbl, hret, hidx, hkeys⟩ :=
    CsvToSlice_spec w data headers rows hread (fun record hrec => le_of_eq (hwidth record hrec))
  refine ⟨tbl, hret, hkeys, ?_⟩
  intro k v hfind
  have hk : k ∈ Table.keys tbl := by
    by_contra hcon
    rw [(Table.find_eq_none_iff tbl k).mpr hcon] at hfind
    exact absurd hfind (by simp)
  have hv : v = Table.index tbl k := by
    rw [Table.find_of_mem_keys tbl k hk] at hfind
    exact (Option.some.inj hfind).symm
  obtain ⟨j, hj, hjk⟩ := List.getElem_of_mem ((hkeys k).mp hk)
  subst hjk
  have hcol := columnOfRows_nodup headers hnodup j hj rows hwidth
  have hlen := congrArg List.length hcol
  simp only [List.length_map] at hlen
  rw [hv, hidx]
  exact hlen

/-- C2, amended, at the table of the end-to-end example. -/
theorem CsvToSlice_keys_lengths_witness :
    ReadAll (exampleWorld.csvRecords "name,age\nAlice,30\nBob,25") 0 =
        Except.ok [["name", "age"], ["Alice", "30"], ["Bob", "25"]] ∧
      ∃ tbl, CsvToSlice exampleWorld "name,age\nAlice,30\nBob,25" =
          Outcome.returned (some tbl, none) ∧
        (∀ k, k ∈ Table.keys tbl ↔ k ∈ ["name", "age"]) ∧
        ∀ k v, Table.find tbl k = some v →
          v.length = [["Alice", "30"], ["Bob", "25"]].length :=
  ⟨rfl, CsvToSlice_keys_lengths exampleWorld "name,age\nAlice,30\nBob,25" ["name", "age"]
    [["Alice", "30"], ["Bob", "25"]] rfl (by decide) (by decide)⟩

/-- C8: where the lexer yields records of at least one field (as `encoding/csv` does), a
text with a data row whose number of fields differs from that of the header row makes
`CsvToSlice` return an error and the nil map, and `CsvToSlice` never panics on
`headers[i]`. -/
theorem CsvToSlice_ragged (w : World) (data : String)
    (hne : ∀ record, Except.ok record ∈ w.csvRecords data → record ≠ []) :
    (∀ headers rest record, w.csvRecords data = Except.ok headers :: rest →
        Except.ok record ∈ rest → record.length ≠ headers.length →
        ∃ err, CsvToSlice w data = Outcome.returned (none, some err)) ∧
      CsvToSlice w data ≠ Outcome.panicked := by
  constructor
  · intro headers rest record hitems hmem hlen
    have hpos : 0 < headers.length := by
      have := hne headers (by rw [hitems]; exact List.mem_cons_self _ _)
      exact List.length_pos.mpr this
    obtain ⟨err, herr⟩ := ReadAll_ragged rest headers.length hpos record hmem hlen
    refine ⟨err, ?_⟩
    simp [CsvToSlice, hitems, ReadAll, herr]
  · cases hread : ReadAll (w.csvRecords data) 0 with
    | error err => simp [CsvToSlice, hread]
    | ok records =>
      cases records with
      | nil => simp [CsvToSlice, hread]
      | cons headers rows =>
        obtain ⟨rest, hitems, hrest⟩ := ReadAll_head _ headers rows hread
        have hpos : 0 < headers.length := by
          have := hne headers (by rw [hitems]; exact List.mem_cons_self _ _)
          exact List.length_pos.mpr this
        have hwidth := ReadAll_width rest headers.length hpos rows hrest
        obtain ⟨tbl, hret, _⟩ := CsvToSlice_spec w data headers rows hread
          (fun record hrec => le_of_eq (hwidth record hrec))
        rw [hret]
        simp

/-- C8 at the text `a,b` / `1`, whose data row has one field under two headers. -/
theorem CsvToSlice_ragged_witness :
    (∀ record, Except.ok record ∈ exampleWorld.csvRecords "a,b\n1" → record ≠ []) ∧
      CsvToSlice exampleWorld "a,b\n1" =
        Outcome.returned (none, some GoError.ErrFieldCount) ∧
      (∃ err, CsvToSlice exampleWorld "a,b\n1" = Outcome.returned (none, some err)) ∧
      CsvToSlice exampleWorld "a,b\n1" ≠ Outcome.panicked :=
  ⟨plainCsvRecords_nonempty "a,b\n1", rfl,
    (CsvToSlice_ragged exampleWorld "a,b\n1" (plainCsvRecords_nonempty "a,b\n1")).1
      ["a", "b"] [Except.ok ["1"]] ["1"] rfl (List.mem_singleton.mpr rfl) (by decide),
    (CsvToSlice_ragged exampleWorld "a,b\n1" (plainCsvRecords_nonempty "a,b\n1")).2⟩

/-! ## Claims on the answer text -/

/-- C3 (the code departs from it): under the aggregator `SUM`, a cell for which
`ParseFloat` returns an error is not left out of the sum: the value returned together
with the error is added to the total and the answer text is the `%f` rendering of that
total. -/
theorem handleJawab_sum_adds_failed_cell (w : World) (token body : String)
    (req : JawabRequest) (sliceData : Option Table) (translated : String)
    (ev ev' : List Event) (response : Response) (cell : String) (v : w.Float64)
    (err : GoError)
    (hdec : w.jsonDecodeRequest body = Except.ok req)
    (hcsv : CsvToSlice w req.CSV = Outcome.returned (sliceData, none))
    (htr : translateText w req.Ask = ((translated, none), ev))
    (hai : ConnectAIModel w ⟨sliceData, translated⟩ token = ((response, none), ev'))
    (hagg : response.Aggregator = "SUM")
    (hcells : response.Cells = [cell])
    (hparse : w.ParseFloat (w.TrimSpace cell) = (v, some err)) :
    (handleJawab w token body).encoded =
      some (successEnvelope (w.SprintfF (w.add w.zero v)) response) := by
  rw [handleJawab_success w token body req sliceData translated ev ev' response hdec hcsv htr hai]
  simp [answerText, hagg, hcells, sumCells, hparse]

/-- C3 at the cell `1e400`: `ParseFloat` returns `+Inf` with a range error, and the answer
is `+Inf`, not the rendering `0.000000` of the empty sum. -/
theorem handleJawab_sum_adds_failed_cell_witness :
    hugeSumWorld.ParseFloat (hugeSumWorld.TrimSpace "1e400") =
        (Fixed.posInf,
          some (GoError.library "strconv.ParseFloat: parsing \"1e400\": value out of range")) ∧
      (handleJawab hugeSumWorld "token" exampleBody).encoded =
        some (successEnvelope "+Inf" ⟨"SUM > 1e400", [[0, 1]], ["1e400"], "SUM"⟩) ∧
      hugeSumWorld.SprintfF hugeSumWorld.zero = "0.000000" :=
  ⟨rfl,
    handleJawab_sum_adds_failed_cell hugeSumWorld "token" exampleBody
      ⟨"name,age\nAlice,30\nBob,25", "siapa yang berumur 30?"⟩
      (some [("name", ["Alice", "Bob"]), ("age", ["30", "25"])]) "who is 30 years old?"
      _ _ ⟨"SUM > 1e400", [[0, 1]], ["1e400"], "SUM"⟩ "1e400" Fixed.posInf _
      rfl rfl rfl rfl rfl rfl rfl,
    rfl⟩

/-- C4: when all four steps succeed and the aggregator is any string other than `SUM`,
the answer text is `AI Model Response: ` and a line feed followed by the cells, joined
by single spaces, in square brackets; no cell is parsed. -/
theorem handleJawab_other_aggregator (w : World) (token body : String)
    (req : JawabRequest) (sliceData : Option Table) (translated : String)
    (ev ev' : List Event) (response : Response)
    (hdec : w.jsonDecodeRequest body = Except.ok req)
    (hcsv : CsvToSlice w req.CSV = Outcome.returned (sliceData, none))
    (htr : translateText w req.Ask = ((translated, none), ev))
    (hai : ConnectAIModel w ⟨sliceData, translated⟩ token = ((response, none), ev'))
    (hagg : response.Aggregator ≠ "SUM") :
    (handleJawab w token body).encoded =
      some [("success", FieldValue.bool true),
        ("answer", FieldValue.string
          ("AI Model Response: \n" ++ ("[" ++ " ".intercalate response.Cells ++ "]"))),
        ("coordinates", FieldValue.intLists response.Coordinates),
        ("cells", FieldValue.strings response.Cells),
        ("aggregator", FieldValue.string response.Aggregator)] := by
  rw [handleJawab_success w token body req sliceData translated ev ev' response hdec hcsv htr hai]
  simp [answerText, hagg, successEnvelope, fmtStrings]

/-- C4 at the end-to-end example: aggregator `NONE`, cells `[Alice]`. -/
theorem handleJawab_other_aggregator_witness :
    (handleJawab exampleWorld "token" exampleBody).encoded =
      some [("success", FieldValue.bool true),
        ("answer", FieldValue.string "AI Model Response: \n[Alice]"),
        ("coordinates", FieldValue.intLists [[0, 0]]),
        ("cells", FieldValue.strings ["Alice"]),
        ("aggregator", FieldValue.string "NONE")] :=
  handleJawab_other_aggregator exampleWorld "token" exampleBody
    ⟨"name,age\nAlice,30\nBob,25", "siapa yang berumur 30?"⟩
    (some [("name", ["Alice", "Bob"]), ("age", ["30", "25"])]) "who is 30 years old?"
    _ _ ⟨"Alice", [[0, 0]], ["Alice"], "NONE"⟩ rfl rfl rfl rfl (by decide)

/-! ## Claims on the pipeline -/

/-- C5: when the request does not decode, or `CsvToSlice`, `translateText` or
`ConnectAIModel` returns an error, the handler encodes the struct with the single field
`success = false`; after a decode or CSV error no call is made at all, and after a
translation error nothing reaches the table question answering side. -/
theorem handleJawab_failure (w : World) (token body : String) :
    (∀ err, w.jsonDecodeRequest body = Except.error err →
        handleJawab w token body = ⟨some [("success", FieldValue.bool false)], false, []⟩) ∧
    (∀ req tbl err, w.jsonDecodeRequest body = Except.ok req →
        CsvToSlice w req.CSV = Outcome.returned (tbl, some err) →
        handleJawab w token body = ⟨some [("success", FieldValue.bool false)], false, []⟩) ∧
    (∀ req sliceData text err ev, w.jsonDecodeRequest body = Except.ok req →
        CsvToSlice w req.CSV = Outcome.returned (sliceData, none) →
        translateText w req.Ask = ((text, some err), ev) →
        (handleJawab w token body).encoded = some [("success", FieldValue.bool false)] ∧
        ∀ e ∈ (handleJawab w token body).events, Event.isTableQA e = false) ∧
    (∀ req sliceData translated ev response err ev',
        w.jsonDecodeRequest body = Except.ok req →
        CsvToSlice w req.CSV = Outcome.returned (sliceData, none) →
        translateText w req.Ask = ((translated, none), ev) →
        ConnectAIModel w ⟨sliceData, translated⟩ token = ((response, some err), ev') →
        (handleJawab w token body).encoded = some [("success", FieldValue.bool false)]) := by
  refine ⟨?_, ?_, ?_, ?_⟩
  · intro err hdec
    simp only [handleJawab, hdec, failureEnvelope]
  · intro req tbl err hdec hcsv
    simp only [handleJawab, hdec, hcsv, failureEnvelope]
  · intro req sliceData text err ev hdec hcsv htr
    have hev := translateText_events w req.Ask
    rw [htr] at hev
    have hrun : handleJawab w token body =
        ⟨some failureEnvelope, false, Event.translateText req.Ask :: ev⟩ := by
      simp only [handleJawab, hdec, hcsv, htr]
    rw [hrun]
    refine ⟨rfl, ?_⟩
    intro e he
    rcases List.mem_cons.mp he with h | h
    · subst h
      rfl
    · exact hev e h
  · intro req sliceData translated ev response err ev' hdec hcsv htr hai
    simp only [handleJawab, hdec, hcsv, htr, hai, failureEnvelope]

/-- C5 on the four failures: a body that is no JSON, a CSV with a short row, a translation
endpoint answering with an error object, a table question answering endpoint answering
with status 503. -/
theorem handleJawab_failure_witness :
    handleJawab exampleWorld "token" "csv=1" =
        ⟨some [("success", FieldValue.bool false)], false, []⟩ ∧
    handleJawab exampleWorld "token" raggedBody =
        ⟨some [("success", FieldValue.bool false)], false, []⟩ ∧
    ((handleJawab translationDownWorld "token" exampleBody).encoded =
        some [("success", FieldValue.bool false)] ∧
      ∀ e ∈ (handleJawab translationDownWorld "token" exampleBody).events,
        Event.isTableQA e = false) ∧
    (handleJawab tableQADownWorld "token" exampleBody).encoded =
        some [("success", FieldValue.bool false)] :=
  ⟨(handleJawab_failure exampleWorld "token" "csv=1").1 _ rfl,
    (handleJawab_failure exampleWorld "token" raggedBody).2.1
      ⟨"a,b\n1", "berapa?"⟩ none GoError.ErrFieldCount rfl rfl,
    (handleJawab_failure translationDownWorld "token" exampleBody).2.2.1
      ⟨"name,age\nAlice,30\nBob,25", "siapa yang berumur 30?"⟩
      (some [("name", ["Alice", "Bob"]), ("age", ["30", "25"])]) "" _ _ rfl rfl rfl,
    (handleJawab_failure tableQADownWorld "token" exampleBody).2.2.2
      ⟨"name,age\nAlice,30\nBob,25", "siapa yang berumur 30?"⟩
      (some [("name", ["Alice", "Bob"]), ("age", ["30", "25"])]) "who is 30 years old?"
      _ Response.zero _ _ rfl rfl rfl rfl⟩

/-- C6: when all four steps succeed, the handler encodes `success = true` with the
coordinates, cells and aggregator of the response of `ConnectAIModel` unchanged,
whatever the cells are; `ConnectAIModel` is entered with the translated text as query,
the request sent to the table question answering URL carries the JSON of that payload,
and the response encoded is the one decoded from the answer to that request. -/
theorem handleJawab_success_frame (w : World) (token body : String)
    (req : JawabRequest) (sliceData : Option Table) (translated : String)
    (ev ev' : List Event) (response : Response)
    (hdec : w.jsonDecodeRequest body = Except.ok req)
    (hcsv : CsvToSlice w req.CSV = Outcome.returned (sliceData, none))
    (htr : translateText w req.Ask = ((translated, none), ev))
    (hai : ConnectAIModel w ⟨sliceData, translated⟩ token = ((response, none), ev')) :
    (handleJawab w token body).encoded =
      some [("success", FieldValue.bool true),
        ("answer", FieldValue.string (answerText w response)),
        ("coordinates", FieldValue.intLists response.Coordinates),
        ("cells", FieldValue.strings response.Cells),
        ("aggregator", FieldValue.string response.Aggregator)] ∧
    Event.ConnectAIModel ⟨sliceData, translated⟩ token ∈ (handleJawab w token body).events ∧
    (∀ payload tok, Event.ConnectAIModel payload tok ∈ (handleJawab w token body).events →
      payload.Query = translated) ∧
    (∀ request, Event.httpDo request ∈ (handleJawab w token body).events →
      request.url = tableQAURL →
      w.jsonMarshalInputs ⟨sliceData, translated⟩ = Except.ok request.body ∧
      ∃ resp, w.Do request = Except.ok resp ∧
        w.jsonDecodeResponse resp.Body = Except.ok response) := by
  obtain ⟨jsonData, resp, hm, hdo, _, hdecode, hev'⟩ :=
    ConnectAIModel_success w ⟨sliceData, translated⟩ token response ev' hai
  have hev := translateText_events w req.Ask
  rw [htr] at hev
  rw [handleJawab_success w token body req sliceData translated ev ev' response hdec hcsv htr hai]
  refine ⟨rfl, ?_, ?_, ?_⟩
  · simp
  · intro payload tok hmem
    rcases List.mem_cons.mp hmem with h | h
    · exact absurd h (by simp)
    · rcases List.mem_append.mp h with h | h
      · have := hev _ h
        simp [Event.isTableQA] at this
      · rcases List.mem_cons.mp h with h | h
        · injection h with h1 _
          rw [h1]
        · rw [hev'] at h
          exact absurd (List.mem_singleton.mp h) (by simp)
  · intro request hmem hurl
    rcases List.mem_cons.mp hmem with h | h
    · exact absurd h (by simp)
    · rcases List.mem_append.mp h with h | h
      · have := hev _ h
        simp [Event.isTableQA, hurl] at this
      · rcases List.mem_cons.mp h with h | h
        · exact absurd h (by simp)
        · rw [hev'] at h
          have h1 := List.mem_singleton.mp h
          injection h1 with h2
          rw [h2]
          exact ⟨hm, resp, hdo, hdecode⟩

/-- C6 at the end-to-end example. -/
theorem handleJawab_success_frame_witness :
    (handleJawab exampleWorld "token" exampleBody).encoded =
      some [("success", FieldValue.bool true),
        ("answer", FieldValue.string "AI Model Response: \n[Alice]"),
        ("coordinates", FieldValue.intLists [[0, 0]]),
        ("cells", FieldValue.strings ["Alice"]),
        ("aggregator", FieldValue.string "NONE")] ∧
    Event.ConnectAIModel
        ⟨some [("name", ["Alice", "Bob"]), ("age", ["30", "25"])], "who is 30 years old?"⟩
        "token" ∈ (handleJawab exampleWorld "token" exampleBody).events :=
  ⟨(handleJawab_success_frame exampleWorld "token" exampleBody
      ⟨"name,age\nAlice,30\nBob,25", "siapa yang berumur 30?"⟩
      (some [("name", ["Alice", "Bob"]), ("age", ["30", "25"])]) "who is 30 years old?"
      _ _ ⟨"Alice", [[0, 0]], ["Alice"], "NONE"⟩ rfl rfl rfl rfl).1,
   (handleJawab_success_frame exampleWorld "token" exampleBody
      ⟨"name,age\nAlice,30\nBob,25", "siapa yang berumur 30?"⟩
      (some [("name", ["Alice", "Bob"]), ("age", ["30", "25"])]) "who is 30 years old?"
      _ _ ⟨"Alice", [[0, 0]], ["Alice"], "NONE"⟩ rfl rfl rfl rfl).2.1⟩

/-- C7 (the code departs from it): `translateText` does not read the status code.  When
the translation endpoint answers with status 500 and a body that decodes as a
non-empty array, `translateText` returns the first translation without error and the
handler goes on to enter `ConnectAIModel`. -/
theorem translateText_ignores_status (w : World) (token body : String)
    (req : JawabRequest) (sliceData : Option Table) (jsonData bodyText : String)
    (first : Translation) (others : List Translation)
    (hdec : w.jsonDecodeRequest body = Except.ok req)
    (hcsv : CsvToSlice w req.CSV = Outcome.returned (sliceData, none))
    (hm : w.jsonMarshalText req.Ask = Except.ok jsonData)
    (hdo : w.Do ⟨translateURL, jsonData, translateAuthorization⟩ =
      Except.ok ⟨500, ⟨bodyText, none⟩⟩)
    (hun : w.jsonUnmarshalTranslations bodyText = Except.ok (first :: others)) :
    (translateText w req.Ask).1 = (first.TranslationText, none) ∧
      Event.ConnectAIModel ⟨sliceData, first.TranslationText⟩ token ∈
        (handleJawab w token body).events := by
  have htr : translateText w req.Ask =
      ((first.TranslationText, none),
        [Event.httpDo ⟨translateURL, jsonData, translateAuthorization⟩]) := by
    simp only [translateText, hm, hdo, hun]
  refine ⟨by rw [htr], ?_⟩
  simp only [handleJawab, hdec, hcsv, htr]
  split <;> simp

/-- C7 at the end-to-end example with the translation endpoint answering status 500 and
the body `[{"translation_text":"who is 30 years old?"}]`: the handler answers with
`success = true`. -/
theorem translateText_ignores_status_witness :
    status500World.Do
        ⟨translateURL, "\x7b\"inputs\":\"siapa yang berumur 30?\"\x7d", translateAuthorization⟩ =
      Except.ok ⟨500, ⟨oneTranslation, none⟩⟩ ∧
    ((translateText status500World "siapa yang berumur 30?").1 =
        ("who is 30 years old?", none) ∧
      Event.ConnectAIModel
        ⟨some [("name", ["Alice", "Bob"]), ("age", ["30", "25"])], "who is 30 years old?"⟩
        "token" ∈ (handleJawab status500World "token" exampleBody).events) ∧
    (handleJawab status500World "token" exampleBody).encoded =
      some (successEnvelope "AI Model Response: \n[Alice]"
        ⟨"Alice", [[0, 0]], ["Alice"], "NONE"⟩) :=
  ⟨rfl,
    translateText_ignores_status status500World "token" exampleBody
      ⟨"name,age\nAlice,30\nBob,25", "siapa yang berumur 30?"⟩
      (some [("name", ["Alice", "Bob"]), ("age", ["30", "25"])])
      "\x7b\"inputs\":\"siapa yang berumur 30?\"\x7d" oneTranslation
      ⟨"who is 30 years old?"⟩ [] rfl rfl rfl rfl rfl,
    rfl⟩

/-- C9: once the response body of the translation endpoint is read, `translateText`
returns the `translation_text` of the first element when the body decodes as a
non-empty array, whatever the later elements are, and returns the empty text with an
error when the body decodes as the empty array or does not decode. -/
theorem translateText_first_element (w : World) (text jsonData : String)
    (resp : HttpResponse)
    (hm : w.jsonMarshalText text = Except.ok jsonData)
    (hdo : w.Do ⟨translateURL, jsonData, translateAuthorization⟩ = Except.ok resp)
    (hread : resp.Body.readErr = none) :
    (∀ first others, w.jsonUnmarshalTranslations resp.Body.data = Except.ok (first :: others) →
        (translateText w text).1 = (first.TranslationText, none)) ∧
    (w.jsonUnmarshalTranslations resp.Body.data = Except.ok [] →
        (translateText w text).1 =
          ("", some (GoError.errorf "no translation found in response"))) ∧
    (∀ err, w.jsonUnmarshalTranslations resp.Body.data = Except.error err →
        (translateText w text).1 =
          ("", some (GoError.errorf ("error unmarshaling response: " ++ err.Error)))) := by
  refine ⟨?_, ?_, ?_⟩
  · intro first others hun
    simp only [translateText, hm, hdo, hread, hun]
  · intro hun
    simp only [translateText, hm, hdo, hread, hun]
  · intro err hun
    simp only [translateText, hm, hdo, hread, hun]

/-- C9 at a body with two elements, where the first is returned. -/
theorem translateText_first_element_witness :
    (translateText twoTranslationsWorld "siapa yang berumur 30?").1 =
      ("who is 30 years old?", none) :=
  (translateText_first_element twoTranslationsWorld "siapa yang berumur 30?"
    "\x7b\"inputs\":\"siapa yang berumur 30?\"\x7d" ⟨200, ⟨twoTranslations, none⟩⟩
    rfl rfl rfl).1 ⟨"who is 30 years old?"⟩ [⟨"other"⟩] rfl

/-- C10: once the table question answering endpoint has answered, a status other than 200
makes `ConnectAIModel` return the zero `Response` and an error whose message holds the
status code and the body, whatever the JSON decoder would do with the body; with
status 200 the result is that of decoding the body. -/
theorem ConnectAIModel_status (w : World) (payload : Inputs) (token jsonData : String)
    (resp : HttpResponse)
    (hm : w.jsonMarshalInputs payload = Except.ok jsonData)
    (hdo : w.Do ⟨tableQAURL, jsonData, "Bearer " ++ token⟩ = Except.ok resp) :
    (resp.StatusCode ≠ 200 →
      (ConnectAIModel w payload token).1 =
          (Response.zero, some (GoError.errorf
            ("received non-200 status code: " ++ toString resp.StatusCode ++ ", body: " ++
              resp.Body.data))) ∧
        ∀ decode, ConnectAIModel (w.withDecodeResponse decode) payload token =
          ConnectAIModel w payload token) ∧
    (resp.StatusCode = 200 →
      (ConnectAIModel w payload token).1 =
        match w.jsonDecodeResponse resp.Body with
        | Except.ok response => (response, none)
        | Except.error err => (Response.zero, some err)) := by
  constructor
  · intro hstatus
    have hne : ¬ resp.StatusCode = 200 := hstatus
    constructor
    · simp [ConnectAIModel, hm, hdo, hne, non200Message]
    · intro decode
      have hm' : (w.withDecodeResponse decode).jsonMarshalInputs payload = Except.ok jsonData := hm
      have hdo' : (w.withDecodeResponse decode).Do ⟨tableQAURL, jsonData, "Bearer " ++ token⟩ =
          Except.ok resp := hdo
      simp [ConnectAIModel, hm, hdo, hm', hdo', hne]
  · intro hstatus
    simp only [ConnectAIModel, hm, hdo, hstatus]
    cases w.jsonDecodeResponse resp.Body <;> simp

/-- C10 at status 503 with the body `{"error":"Internal Server Error"}`. -/
theorem ConnectAIModel_status_witness :
    (ConnectAIModel tableQADownWorld ⟨none, "who is 30 years old?"⟩ "token").1 =
      (Response.zero, some (GoError.errorf
        "received non-200 status code: 503, body: \x7b\"error\":\"Internal Server Error\"\x7d")) :=
  ((ConnectAIModel_status tableQADownWorld ⟨none, "who is 30 years old?"⟩ "token"
    "\x7b\"table\":null,\"query\":\"who is 30 years old?\"\x7d" ⟨503, ⟨errorObject, none⟩⟩
    rfl rfl).1 (by decide)).1

end Fcp
